import Mathlib

/-!
Shallow embedding of `src/main.py` (classes `Book` and `Library`), a small
book-catalog manager persisted to one JSON file, together with proofs of the
spec's claims about it.

Modelling conventions:
* Python strings are Lean `String`, Python `int` is `Int`.
* `os.urandom(4).hex()` (the fresh random id in `Book.__init__`) is modelled
  as an explicit argument `freshId` of the operations that create a `Book`:
  the embedding is deterministic, so the randomness source is an oracle
  parameter.
* The data file is part of the `Library` state: `none` models a path whose
  target file does not exist, `some .malformed` an existing file that is not
  valid JSON, `some (.json v)` an existing file holding the JSON value `v`.
* A Python exception escaping a method is modelled with `Except`: the
  distinct exception classes raised during `load_books`
  (`json.JSONDecodeError`, `TypeError`, `KeyError`) become constructors of
  `ParseError`.
* `print` calls are user-interface output only and are not modelled; the
  printed outcome of each operation (added / duplicate / removed /
  not found / invalid status / updated) is modelled as the returned result
  value.
-/

/-- JSON values, as produced by Python's `json.load`. Objects keep their
field list; `jsonField` reproduces the fact that in a Python dict built from
JSON text a repeated key keeps the last occurrence. -/
inductive Json where
  | null
  | bool (b : Bool)
  | num (n : Int)
  | str (s : String)
  | arr (elems : List Json)
  | obj (fields : List (String × Json))

/-- Field access `d[key]` on a JSON object: the last binding of `key` wins,
as in a Python dict built by `json.load`; `none` models a `KeyError`. -/
def jsonField (fields : List (String × Json)) (key : String) : Option Json :=
  match fields with
  | [] => none
  | (k, v) :: rest =>
    match jsonField rest key with
    | some r => some r
    | none => if k == key then some v else none

/-- One book record: the attributes set by `Book.__init__` in `src/main.py`
(lines 18-23). `id` is the hex string from `os.urandom(4).hex()`, `status`
one of the two Russian status strings. -/
structure Book where
  id : String
  title : String
  author : String
  year : Int
  status : String
deriving DecidableEq, Repr

/-- The status `"в наличии"` ("available"), the default set by
`Book.__init__`. -/
def statusAvailable : String := "в наличии"

/-- The status `"выдана"` ("checked out"). -/
def statusCheckedOut : String := "выдана"

/-- `Book.to_dict` (src/main.py lines 25-37): the JSON object written for one
book by `save_books`. -/
def Book.to_dict (b : Book) : Json :=
  .obj [("id", .str b.id), ("title", .str b.title), ("author", .str b.author),
        ("year", .num b.year), ("status", .str b.status)]

/-- The exception escaping `load_books` on bad persisted data:
`json.JSONDecodeError` from `json.load`, `TypeError` when the parsed value is
not a list of objects, `KeyError` when an element lacks a required key. -/
inductive ParseError where
  | invalidJson
  | notArray
  | notObject
  | missingField (key : String)
  | badFieldType (key : String)
deriving DecidableEq, Repr

/-- Contents of the data file: the path's target may not exist, may hold text
that is not valid JSON, or may hold a JSON value. -/
inductive FileContent where
  | malformed
  | json (v : Json)

/-- Read a string-valued required field of one stored book object. Python
itself would not type-check the value (a non-string title would simply
produce an ill-typed `Book`); the claims only concern files whose fields
carry the stored types, and the embedding reports `badFieldType` outside
that corner. A missing key is a `KeyError`. -/
def getStrField (fields : List (String × Json)) (key : String) :
    Except ParseError String :=
  match jsonField fields key with
  | none => .error (.missingField key)
  | some (.str s) => .ok s
  | some _ => .error (.badFieldType key)

/-- Read the integer-valued `year` field of one stored book object; same
conventions as `getStrField`. -/
def getIntField (fields : List (String × Json)) (key : String) :
    Except ParseError Int :=
  match jsonField fields key with
  | none => .error (.missingField key)
  | some (.num n) => .ok n
  | some _ => .error (.badFieldType key)

/-- Rebuild one `Book` from one element of the stored JSON array
(src/main.py lines 66-73): `Book(book["title"], book["author"],
book["year"])` followed by the zip loop that restores the stored `id` and
`status` verbatim, overwriting the fresh random id the constructor drew. -/
def decodeBook (j : Json) : Except ParseError Book :=
  match j with
  | .obj fields => do
    let title ← getStrField fields "title"
    let author ← getStrField fields "author"
    let year ← getIntField fields "year"
    let id ← getStrField fields "id"
    let status ← getStrField fields "status"
    pure { id := id, title := title, author := author, year := year,
           status := status }
  | _ => .error .notObject

/-- Rebuild the book list from the elements of the stored JSON array; the
first failing element's exception escapes. -/
def decodeBooks : List Json → Except ParseError (List Book)
  | [] => .ok []
  | j :: rest => do
    let b ← decodeBook j
    let bs ← decodeBooks rest
    pure (b :: bs)

/-- The `Library` state (src/main.py lines 40-57): the in-memory book list
and the data file the instance reads and writes. -/
structure Library where
  books : List Book
  dataFile : Option FileContent

/-- `Library.save_books` (src/main.py lines 75-85): full-file overwrite of
the data file with the JSON array of `to_dict` objects, in list order. -/
def save_books (lib : Library) : Library :=
  { lib with dataFile := some (.json (.arr (lib.books.map Book.to_dict))) }

/-- `Library.load_books` (src/main.py lines 59-73): if the file does not
exist the method does nothing (leaving `self.books` as it was — empty right
after construction); otherwise it parses the file and replaces `self.books`
by the decoded records. Any exception of the parse escapes uncaught. -/
def load_books (lib : Library) : Except ParseError Library :=
  match lib.dataFile with
  | none => .ok lib
  | some .malformed => .error .invalidJson
  | some (.json v) =>
    match v with
    | .arr elems => (decodeBooks elems).map fun bs => { lib with books := bs }
    | _ => .error .notArray

/-- `Library.__init__` (src/main.py lines 49-57): start with an empty book
list and immediately `load_books` from the given data file. -/
def Library.init (file : Option FileContent) : Except ParseError Library :=
  load_books { books := [], dataFile := file }

/-- Result of `add_book`, as printed on src/main.py lines 98-106. -/
inductive AddResult where
  | duplicate
  | added (b : Book)
deriving DecidableEq, Repr

/-- `Library.add_book` (src/main.py lines 87-106): reject when some existing
book has the identical (title, author, year) — exact-case `==` on each
component — else append a fresh `Book` with the freshly drawn id and status
`"в наличии"`, and save. -/
def add_book (freshId title author : String) (year : Int) (lib : Library) :
    AddResult × Library :=
  if lib.books.any fun b =>
      b.title == title && b.author == author && b.year == year then
    (.duplicate, lib)
  else
    let book : Book := { id := freshId, title := title, author := author,
                         year := year, status := statusAvailable }
    (.added book, save_books { lib with books := lib.books ++ [book] })

/-- `Library.find_book_by_id` (src/main.py lines 122-132): linear scan,
first book whose id equals `book_id` exactly. -/
def find_book_by_id (book_id : String) (lib : Library) : Option Book :=
  lib.books.find? fun b => b.id == book_id

/-- `Library.remove_book` (src/main.py lines 108-120): look the id up; when
found, `self.books.remove(book)` deletes the first list entry that is that
object — the first entry carrying the id — and the state is saved; when not
found nothing changes and nothing is written. -/
def remove_book (book_id : String) (lib : Library) : Option Book × Library :=
  match find_book_by_id book_id lib with
  | some book =>
    (some book,
     save_books { lib with books := lib.books.eraseP fun b => b.id == book_id })
  | none => (none, lib)

/-- Python's `str.lower` on one character, for the alphabets this program
handles (ASCII and Cyrillic, the scripts of its data and UI strings). -/
def pyLowerChar (c : Char) : Char :=
  if 'A' ≤ c ∧ c ≤ 'Z' then Char.ofNat (c.toNat + 32)
  else if 'А' ≤ c ∧ c ≤ 'Я' then Char.ofNat (c.toNat + 32)
  else if c = 'Ё' then 'ё'
  else c

/-- Python's `str.lower`, applied characterwise. -/
def pyLower (s : String) : String := ⟨s.data.map pyLowerChar⟩

/-- Whether `n` is a prefix of `h` (helper for Python's substring test). -/
def hasPrefixChars : List Char → List Char → Bool
  | [], _ => true
  | _ :: _, [] => false
  | a :: as, b :: bs => a == b && hasPrefixChars as bs

/-- Whether `needle` occurs contiguously in the character list. -/
def hasSubChars (needle : List Char) : List Char → Bool
  | [] => hasPrefixChars needle []
  | h :: t => hasPrefixChars needle (h :: t) || hasSubChars needle t

/-- Python's `needle in haystack` on strings: contiguous substring test; the
empty string occurs in every string. -/
def strIn (needle haystack : String) : Bool :=
  hasSubChars needle.data haystack.data

/-- The membership test of the list comprehension in `search_books`
(src/main.py lines 140-146). -/
def matchesBool (search_term : String) (b : Book) : Bool :=
  strIn (pyLower search_term) (pyLower b.title)
  || strIn (pyLower search_term) (pyLower b.author)
  || strIn search_term (toString b.year)

/-- `Library.search_books` (src/main.py lines 134-151): the list of books
matching the term by lowered title, lowered author, or literal year string,
in list order. The method prints the matches (or a "nothing found" line when
the list is empty — not an error); the embedding returns the list. -/
def search_books (search_term : String) (lib : Library) : List Book :=
  lib.books.filter (matchesBool search_term)

/-- Result of `update_status`, as printed on src/main.py lines 186-194. -/
inductive UpdateResult where
  | notFound
  | invalidStatus
  | updated (b : Book)
deriving DecidableEq, Repr

/-- In-place mutation `book.status = new_status` of the object returned by
`find_book_by_id`: the first list entry carrying the id gets the new status,
every other entry is untouched. -/
def setStatusFirst (book_id new_status : String) : List Book → List Book
  | [] => []
  | b :: bs =>
    if b.id == book_id then { b with status := new_status } :: bs
    else b :: setStatusFirst book_id new_status bs

/-- `Library.update_status` (src/main.py lines 174-194): look the id up
first — absence is reported not-found whatever the status argument; when
found, `new_status in ["в наличии", "выдана"]` gates the update; a valid
status is written into the found object and the state is saved. -/
def update_status (book_id new_status : String) (lib : Library) :
    UpdateResult × Library :=
  match find_book_by_id book_id lib with
  | some book =>
    if new_status == statusAvailable || new_status == statusCheckedOut then
      (.updated { book with status := new_status },
       save_books { lib with books := setStatusFirst book_id new_status lib.books })
    else
      (.invalidStatus, lib)
  | none => (.notFound, lib)

/-- The Python `Book(title, author, year)` constructor call with the fresh
random id it draws passed explicitly: status starts as `"в наличии"`. -/
def Book.init (freshId title author : String) (year : Int) : Book :=
  { id := freshId, title := title, author := author, year := year,
    status := statusAvailable }

/-- Spec-side substring relation: `needle` occurs contiguously inside
`haystack`. -/
def OccursIn (needle haystack : String) : Prop :=
  ∃ pre post, haystack.data = pre ++ needle.data ++ post

/-- Spec-side match relation of `search`: the lowered term occurs in the
lowered title, or in the lowered author, or the literal term occurs in the
decimal string of the year. -/
def MatchesSpec (term : String) (b : Book) : Prop :=
  OccursIn (pyLower term) (pyLower b.title)
  ∨ OccursIn (pyLower term) (pyLower b.author)
  ∨ OccursIn term (toString b.year)

/-- The identifying triple of the uniqueness invariant. -/
def tripleOf (b : Book) : String × String × Int := (b.title, b.author, b.year)

/-- Catalog invariant: no two records share (title, author, year),
compared exact-case. -/
def UniqueTriples (books : List Book) : Prop := (books.map tripleOf).Nodup

/-- Whether one stored element carries all five required fields (a
non-object element carries none). -/
def hasRequiredFields (j : Json) : Bool :=
  match j with
  | .obj fields =>
    (jsonField fields "id").isSome && (jsonField fields "title").isSome &&
    (jsonField fields "author").isSome && (jsonField fields "year").isSome &&
    (jsonField fields "status").isSome
  | _ => false

/-- All records of a state carry non-empty title and author text. -/
def NonEmptyTexts (books : List Book) : Prop :=
  ∀ b ∈ books, b.title ≠ "" ∧ b.author ≠ ""

theorem hasPrefixChars_iff (n h : List Char) :
    hasPrefixChars n h = true ↔ ∃ rest, h = n ++ rest := by
  induction n generalizing h with
  | nil => simp [hasPrefixChars]
  | cons a as ih =>
    cases h with
    | nil =>
      simp [hasPrefixChars]
    | cons b bs =>
      simp only [hasPrefixChars, Bool.and_eq_true, beq_iff_eq, ih,
        List.cons_append, List.cons.injEq]
      constructor
      · rintro ⟨rfl, rest, rfl⟩
        exact ⟨rest, rfl, rfl⟩
      · rintro ⟨rest, rfl, rfl⟩
        exact ⟨rfl, rest, rfl⟩

theorem hasSubChars_iff (n h : List Char) :
    hasSubChars n h = true ↔ ∃ pre post, h = pre ++ n ++ post := by
  induction h with
  | nil =>
    simp only [hasSubChars, hasPrefixChars_iff]
    constructor
    · rintro ⟨rest, hrest⟩
      rcases List.append_eq_nil.mp hrest.symm with ⟨hn, hr⟩
      exact ⟨[], [], by simp [hn]⟩
    · rintro ⟨pre, post, hsplit⟩
      rcases List.append_eq_nil.mp hsplit.symm with ⟨h1, h2⟩
      rcases List.append_eq_nil.mp h1 with ⟨h3, h4⟩
      exact ⟨[], by simp [h4]⟩
  | cons c t ih =>
    simp only [hasSubChars, Bool.or_eq_true, hasPrefixChars_iff, ih]
    constructor
    · rintro (⟨rest, hrest⟩ | ⟨pre, post, hsplit⟩)
      · exact ⟨[], rest, by simp [hrest]⟩
      · exact ⟨c :: pre, post, by simp [hsplit]⟩
    · rintro ⟨pre, post, hsplit⟩
      cases pre with
      | nil =>
        exact Or.inl ⟨post, by simpa using hsplit⟩
      | cons p ps =>
        simp only [List.cons_append, List.cons.injEq] at hsplit
        exact Or.inr ⟨ps, post, hsplit.2⟩

theorem strIn_iff (n h : String) : strIn n h = true ↔ OccursIn n h :=
  hasSubChars_iff n.data h.data

theorem matchesBool_iff (term : String) (b : Book) :
    matchesBool term b = true ↔ MatchesSpec term b := by
  simp [matchesBool, MatchesSpec, strIn_iff, or_assoc]

theorem strIn_empty (h : String) : strIn "" h = true := by
  cases hd : h.data with
  | nil => simp [strIn, hd, hasSubChars, hasPrefixChars]
  | cons c t => simp [strIn, hd, hasSubChars, hasPrefixChars]

theorem decodeBook_to_dict (b : Book) : decodeBook (Book.to_dict b) = .ok b := rfl

theorem decodeBooks_map_to_dict (bs : List Book) :
    decodeBooks (bs.map Book.to_dict) = .ok bs := by
  induction bs with
  | nil => rfl
  | cons b rest ih =>
    simp only [List.map_cons, decodeBooks, decodeBook_to_dict, ih]
    rfl

theorem find_book_structure (book_id : String) (l : List Book) (b : Book)
    (h : l.find? (fun x => x.id == book_id) = some b) :
    ∃ pre post, l = pre ++ b :: post ∧ (∀ x ∈ pre, x.id ≠ book_id) ∧
      b.id = book_id ∧ l.eraseP (fun x => x.id == book_id) = pre ++ post := by
  induction l with
  | nil => simp [List.find?] at h
  | cons a as ih =>
    by_cases ha : a.id = book_id
    · have hfind : (a :: as).find? (fun x => x.id == book_id) = some a := by
        simp [List.find?_cons_of_pos, ha]
      rw [hfind] at h
      obtain rfl := Option.some.injEq .. ▸ h.symm
      refine ⟨[], as, by simp, by simp, ha, ?_⟩
      simp [List.eraseP_cons, ha]
    · have hfind : (a :: as).find? (fun x => x.id == book_id) =
          as.find? (fun x => x.id == book_id) := by
        simp [List.find?_cons_of_neg, ha]
      rw [hfind] at h
      obtain ⟨pre, post, hsplit, hpre, hb, herase⟩ := ih h
      refine ⟨a :: pre, post, by simp [hsplit], ?_, hb, ?_⟩
      · intro x hx
        rcases List.mem_cons.mp hx with rfl | hx
        · exact ha
        · exact hpre x hx
      · simp [List.eraseP_cons, ha, herase]

theorem setStatusFirst_app (book_id new_status : String) (pre : List Book)
    (b : Book) (post : List Book) (hpre : ∀ x ∈ pre, x.id ≠ book_id)
    (hb : b.id = book_id) :
    setStatusFirst book_id new_status (pre ++ b :: post) =
      pre ++ { b with status := new_status } :: post := by
  induction pre with
  | nil =>
    simp only [List.nil_append, setStatusFirst]
    rw [if_pos (by simpa using hb)]
  | cons a as ih =>
    have ha : a.id ≠ book_id := hpre a (List.mem_cons_self a as)
    simp only [List.cons_append, setStatusFirst]
    rw [if_neg (by simpa using ha)]
    exact congrArg (a :: ·) (ih fun x hx => hpre x (List.mem_cons_of_mem a hx))

theorem setStatusFirst_map_triple (book_id new_status : String)
    (l : List Book) :
    (setStatusFirst book_id new_status l).map tripleOf = l.map tripleOf := by
  induction l with
  | nil => rfl
  | cons a as ih =>
    by_cases ha : a.id = book_id
    · simp [setStatusFirst, ha, tripleOf]
    · simp [setStatusFirst, ha, ih]

/-- Claim C1: for every catalog state and (title, author, year), `add` on an
already-present exact-case triple is a no-op that signals duplicate and
leaves the state (sequence and file) unchanged; otherwise it creates a
record with the freshly drawn id and status Available, appends it at the
end, persists the full state, and returns the created record. -/
theorem add_book_spec (freshId title author : String) (year : Int)
    (lib : Library) :
    ((∃ b ∈ lib.books, b.title = title ∧ b.author = author ∧ b.year = year) →
      add_book freshId title author year lib = (.duplicate, lib)) ∧
    ((¬ ∃ b ∈ lib.books, b.title = title ∧ b.author = author ∧ b.year = year) →
      add_book freshId title author year lib =
        (.added (Book.init freshId title author year),
         { books := lib.books ++ [Book.init freshId title author year],
           dataFile := some (.json (.arr ((lib.books ++
             [Book.init freshId title author year]).map Book.to_dict))) })) := by
  constructor
  · intro hdup
    have hany : (lib.books.any fun b =>
        b.title == title && b.author == author && b.year == year) = true := by
      simp only [List.any_eq_true, Bool.and_eq_true, beq_iff_eq]
      obtain ⟨b, hb, h1, h2, h3⟩ := hdup
      exact ⟨b, hb, ⟨h1, h2⟩, h3⟩
    simp [add_book, hany]
  · intro hnd
    have hany : (lib.books.any fun b =>
        b.title == title && b.author == author && b.year == year) = false := by
      rw [Bool.eq_false_iff]
      intro hc
      apply hnd
      simp only [List.any_eq_true, Bool.and_eq_true, beq_iff_eq] at hc
      obtain ⟨b, hb, ⟨h1, h2⟩, h3⟩ := hc
      exact ⟨b, hb, h1, h2, h3⟩
    simp [add_book, hany, save_books, Book.init]

/-- Witness for C1 at concrete inputs: the same triple again is rejected
with the state unchanged, and a fresh triple is appended and saved. -/
theorem add_book_spec_witness :
    (add_book "0a0a0a0a" "T" "A" 2000
        { books := [⟨"ffffffff", "T", "A", 2000, "в наличии"⟩],
          dataFile := none } =
      (.duplicate,
       { books := [⟨"ffffffff", "T", "A", 2000, "в наличии"⟩],
         dataFile := none })) ∧
    (add_book "0a0a0a0a" "T" "A" 2000 { books := [], dataFile := none } =
      (.added (Book.init "0a0a0a0a" "T" "A" 2000),
       { books := [Book.init "0a0a0a0a" "T" "A" 2000],
         dataFile := some (.json (.arr
           ([Book.init "0a0a0a0a" "T" "A" 2000].map Book.to_dict))) })) :=
  ⟨(add_book_spec "0a0a0a0a" "T" "A" 2000 _).1
      ⟨⟨"ffffffff", "T", "A", 2000, "в наличии"⟩, by simp, rfl, rfl, rfl⟩,
   (add_book_spec "0a0a0a0a" "T" "A" 2000 _).2 (by simp)⟩

/-- Claim C2: for every book sequence, saving and then loading on the same
path yields the same sequence — same records (id, title, author, year,
status) in the same order. -/
theorem save_then_load_roundtrip (lib : Library) :
    load_books (save_books lib) = .ok (save_books lib) ∧
    (save_books lib).books = lib.books := by
  refine ⟨?_, rfl⟩
  simp [load_books, save_books, decodeBooks_map_to_dict, Except.map]

/-- Claim C5: `search` returns exactly the books whose lowered title or
lowered author contains the lowered term, or whose decimal year string
contains the literal term, keeping the original order (it is the in-order
filter of the book list by that test, and the boolean test coincides with
the spec-side substring relation). -/
theorem search_books_spec (term : String) (lib : Library) :
    search_books term lib = lib.books.filter (matchesBool term) ∧
    ∀ b : Book, matchesBool term b = true ↔ MatchesSpec term b :=
  ⟨rfl, fun b => matchesBool_iff term b⟩

/-- Claim C10: searching with the empty term matches every record (the
empty string occurs in every title), so the whole sequence comes back in
insertion order; an empty term is not an invalid query. -/
theorem search_books_empty_term (lib : Library) :
    search_books "" lib = lib.books := by
  rw [search_books, List.filter_eq_self]
  intro b _
  have hlow : pyLower "" = "" := rfl
  simp [matchesBool, hlow, strIn_empty]

/-- Claim C3: `update_status` looks the id up first — an unknown id is
reported not-found whatever the status argument; a found record with a
status outside the two legal values is reported invalid-status with nothing
mutated; a found record with a legal status gets that status written into
the first entry carrying the id, the state is saved, and the updated record
is returned. -/
theorem update_status_spec (book_id new_status : String) (lib : Library) :
    (find_book_by_id book_id lib = none →
      update_status book_id new_status lib = (.notFound, lib)) ∧
    (∀ b, find_book_by_id book_id lib = some b →
      new_status ≠ statusAvailable → new_status ≠ statusCheckedOut →
      update_status book_id new_status lib = (.invalidStatus, lib)) ∧
    (∀ b, find_book_by_id book_id lib = some b →
      (new_status = statusAvailable ∨ new_status = statusCheckedOut) →
      update_status book_id new_status lib =
        (.updated { b with status := new_status },
         save_books { lib with
           books := setStatusFirst book_id new_status lib.books })) := by
  refine ⟨?_, ?_, ?_⟩
  · intro h
    simp [update_status, h]
  · intro b hfind h1 h2
    have hv : (new_status == statusAvailable
        || new_status == statusCheckedOut) = false := by
      simp [h1, h2]
    simp [update_status, hfind, hv]
  · intro b hfind hv
    have hv' : (new_status == statusAvailable
        || new_status == statusCheckedOut) = true := by
      rcases hv with rfl | rfl <;> simp
    simp [update_status, hfind, hv']

/-- Witness for C3 at concrete inputs: unknown id (with a valid status) is
not-found, bad status on a known id is invalid-status, valid status on a
known id updates and saves. -/
theorem update_status_spec_witness :
    (update_status "ffffffff" "выдана"
        { books := [⟨"1a2b3c4d", "T", "A", 2000, "в наличии"⟩],
          dataFile := none } =
      (.notFound,
       { books := [⟨"1a2b3c4d", "T", "A", 2000, "в наличии"⟩],
         dataFile := none })) ∧
    (update_status "1a2b3c4d" "bogus"
        { books := [⟨"1a2b3c4d", "T", "A", 2000, "в наличии"⟩],
          dataFile := none } =
      (.invalidStatus,
       { books := [⟨"1a2b3c4d", "T", "A", 2000, "в наличии"⟩],
         dataFile := none })) ∧
    (update_status "1a2b3c4d" "выдана"
        { books := [⟨"1a2b3c4d", "T", "A", 2000, "в наличии"⟩],
          dataFile := none } =
      (.updated ⟨"1a2b3c4d", "T", "A", 2000, "выдана"⟩,
       save_books
         { books := setStatusFirst "1a2b3c4d" "выдана"
             [⟨"1a2b3c4d", "T", "A", 2000, "в наличии"⟩],
           dataFile := none })) :=
  ⟨(update_status_spec "ffffffff" "выдана" _).1 rfl,
   (update_status_spec "1a2b3c4d" "bogus" _).2.1
     ⟨"1a2b3c4d", "T", "A", 2000, "в наличии"⟩ rfl (by decide) (by decide),
   (update_status_spec "1a2b3c4d" "выдана" _).2.2
     ⟨"1a2b3c4d", "T", "A", 2000, "в наличии"⟩ rfl (Or.inr rfl)⟩

/-- Claim C4: `remove` deletes the first record carrying the id — the
sequence loses exactly that entry, shrinks by one, and the state is saved;
an unknown id is reported not-found with the state (sequence and file)
untouched. The first-match structure is exhibited by the split of the list
around the removed record. -/
theorem remove_book_spec (book_id : String) (lib : Library) :
    (find_book_by_id book_id lib = none →
      remove_book book_id lib = (none, lib)) ∧
    (∀ b, find_book_by_id book_id lib = some b →
      remove_book book_id lib =
        (some b,
         save_books { lib with
           books := lib.books.eraseP fun x => x.id == book_id }) ∧
      (remove_book book_id lib).2.books.length + 1 = lib.books.length ∧
      ∃ pre post, lib.books = pre ++ b :: post ∧
        (∀ x ∈ pre, x.id ≠ book_id) ∧ b.id = book_id ∧
        (remove_book book_id lib).2.books = pre ++ post) := by
  constructor
  · intro h
    simp [remove_book, h]
  · intro b hfind
    obtain ⟨pre, post, hsplit, hpre, hb, herase⟩ :=
      find_book_structure book_id lib.books b hfind
    have hrm : remove_book book_id lib =
        (some b,
         save_books { lib with
           books := lib.books.eraseP fun x => x.id == book_id }) := by
      simp [remove_book, hfind]
    refine ⟨hrm, ?_, pre, post, hsplit, hpre, hb, ?_⟩
    · rw [hrm]
      simp only [save_books, herase]
      rw [hsplit]
      simp only [List.length_append, List.length_cons]
      omega
    · rw [hrm]
      simp [save_books, herase]

/-- Witness for C4 at concrete inputs: removing a present id deletes that
one record and saves; removing an absent id changes nothing. -/
theorem remove_book_spec_witness :
    (remove_book "ffffffff"
        { books := [⟨"1a2b3c4d", "T", "A", 2000, "в наличии"⟩],
          dataFile := none } =
      (none,
       { books := [⟨"1a2b3c4d", "T", "A", 2000, "в наличии"⟩],
         dataFile := none })) ∧
    (remove_book "1a2b3c4d"
        { books := [⟨"1a2b3c4d", "T", "A", 2000, "в наличии"⟩,
                    ⟨"2b3c4d5e", "U", "B", 1990, "в наличии"⟩],
          dataFile := none } =
      (some ⟨"1a2b3c4d", "T", "A", 2000, "в наличии"⟩,
       save_books
         { books := [⟨"1a2b3c4d", "T", "A", 2000, "в наличии"⟩,
                     ⟨"2b3c4d5e", "U", "B", 1990, "в наличии"⟩].eraseP
             fun x => x.id == "1a2b3c4d",
           dataFile := none })) ∧
    (remove_book "1a2b3c4d"
        { books := [⟨"1a2b3c4d", "T", "A", 2000, "в наличии"⟩,
                    ⟨"2b3c4d5e", "U", "B", 1990, "в наличии"⟩],
          dataFile := none }).2.books.length + 1 = 2 :=
  ⟨(remove_book_spec "ffffffff"
      { books := [⟨"1a2b3c4d", "T", "A", 2000, "в наличии"⟩],
        dataFile := none }).1 rfl,
   ((remove_book_spec "1a2b3c4d"
      { books := [⟨"1a2b3c4d", "T", "A", 2000, "в наличии"⟩,
                  ⟨"2b3c4d5e", "U", "B", 1990, "в наличии"⟩],
        dataFile := none }).2
     ⟨"1a2b3c4d", "T", "A", 2000, "в наличии"⟩ rfl).1,
   ((remove_book_spec "1a2b3c4d"
      { books := [⟨"1a2b3c4d", "T", "A", 2000, "в наличии"⟩,
                  ⟨"2b3c4d5e", "U", "B", 1990, "в наличии"⟩],
        dataFile := none }).2
     ⟨"1a2b3c4d", "T", "A", 2000, "в наличии"⟩ rfl).2.1⟩

/-- Claim C8: a valid status update on a present id changes only the status
field of the first record carrying the id — its id, title, author and year
survive — and every other record, the order and the length of the sequence
are unchanged. -/
theorem update_status_frame (book_id new_status : String) (lib : Library)
    (b : Book) (hfind : find_book_by_id book_id lib = some b)
    (hvalid : new_status = statusAvailable ∨ new_status = statusCheckedOut) :
    (update_status book_id new_status lib).2.books.length =
      lib.books.length ∧
    ∃ pre post, lib.books = pre ++ b :: post ∧
      (update_status book_id new_status lib).2.books =
        pre ++ { id := b.id, title := b.title, author := b.author,
                 year := b.year, status := new_status } :: post := by
  have hv' : (new_status == statusAvailable
      || new_status == statusCheckedOut) = true := by
    rcases hvalid with rfl | rfl <;> simp
  obtain ⟨pre, post, hsplit, hpre, hb, _⟩ :=
    find_book_structure book_id lib.books b hfind
  have hset : setStatusFirst book_id new_status lib.books =
      pre ++ { b with status := new_status } :: post := by
    rw [hsplit]
    exact setStatusFirst_app book_id new_status pre b post hpre hb
  have hupd : (update_status book_id new_status lib).2.books =
      pre ++ { b with status := new_status } :: post := by
    simp [update_status, hfind, hv', save_books, hset]
  constructor
  · rw [hupd, hsplit]
    simp
  · exact ⟨pre, post, hsplit, hupd⟩

/-- Witness for C8 at a concrete input: checking out the one available
record keeps the length and rewrites only the status. -/
theorem update_status_frame_witness :
    (update_status "1a2b3c4d" "выдана"
        { books := [⟨"1a2b3c4d", "T", "A", 2000, "в наличии"⟩],
          dataFile := none }).2.books.length = 1 :=
  (update_status_frame "1a2b3c4d" "выдана"
      { books := [⟨"1a2b3c4d", "T", "A", 2000, "в наличии"⟩],
        dataFile := none }
      ⟨"1a2b3c4d", "T", "A", 2000, "в наличии"⟩ rfl (Or.inr rfl)).1

/-- Failure test on a load result: did an exception escape? -/
def isParseFailure : Except ParseError Library → Bool
  | .error _ => true
  | .ok _ => false

/-- The id string stored in one element of the persisted array, when
present. -/
def storedId : Json → Option String
  | .obj fields =>
    match jsonField fields "id" with
    | some (.str s) => some s
    | _ => none
  | _ => none

/-- The status string stored in one element of the persisted array, when
present. -/
def storedStatus : Json → Option String
  | .obj fields =>
    match jsonField fields "status" with
    | some (.str s) => some s
    | _ => none
  | _ => none

theorem getStrField_ok (fields : List (String × Json)) (key s : String) :
    getStrField fields key = .ok s ↔
      jsonField fields key = some (.str s) := by
  cases hj : jsonField fields key with
  | none => simp [getStrField, hj]
  | some v => cases v <;> simp [getStrField, hj]

theorem getIntField_ok (fields : List (String × Json)) (key : String)
    (n : Int) :
    getIntField fields key = .ok n ↔
      jsonField fields key = some (.num n) := by
  cases hj : jsonField fields key with
  | none => simp [getIntField, hj]
  | some v => cases v <;> simp [getIntField, hj]

theorem decodeBook_ok_fields (j : Json) (b : Book)
    (h : decodeBook j = .ok b) :
    ∃ fields, j = .obj fields ∧
      jsonField fields "title" = some (.str b.title) ∧
      jsonField fields "author" = some (.str b.author) ∧
      jsonField fields "year" = some (.num b.year) ∧
      jsonField fields "id" = some (.str b.id) ∧
      jsonField fields "status" = some (.str b.status) := by
  cases j with
  | obj fields =>
    refine ⟨fields, rfl, ?_⟩
    cases h1 : getStrField fields "title" with
    | error e => simp [decodeBook, h1, Bind.bind, Except.bind] at h
    | ok title =>
    cases h2 : getStrField fields "author" with
    | error e => simp [decodeBook, h1, h2, Bind.bind, Except.bind] at h
    | ok author =>
    cases h3 : getIntField fields "year" with
    | error e => simp [decodeBook, h1, h2, h3, Bind.bind, Except.bind] at h
    | ok year =>
    cases h4 : getStrField fields "id" with
    | error e =>
      simp [decodeBook, h1, h2, h3, h4, Bind.bind, Except.bind] at h
    | ok id =>
    cases h5 : getStrField fields "status" with
    | error e =>
      simp [decodeBook, h1, h2, h3, h4, h5, Bind.bind, Except.bind] at h
    | ok status =>
      simp only [decodeBook, h1, h2, h3, h4, h5, Bind.bind, Except.bind,
        pure, Except.pure, Except.ok.injEq] at h
      subst h
      exact ⟨(getStrField_ok fields "title" title).mp h1,
        (getStrField_ok fields "author" author).mp h2,
        (getIntField_ok fields "year" year).mp h3,
        (getStrField_ok fields "id" id).mp h4,
        (getStrField_ok fields "status" status).mp h5⟩
  | null => simp [decodeBook] at h
  | bool b' => simp [decodeBook] at h
  | num n => simp [decodeBook] at h
  | str s => simp [decodeBook] at h
  | arr elems => simp [decodeBook] at h

theorem decodeBook_ok_required (j : Json) (b : Book)
    (h : decodeBook j = .ok b) : hasRequiredFields j = true := by
  obtain ⟨fields, rfl, h1, h2, h3, h4, h5⟩ := decodeBook_ok_fields j b h
  simp [hasRequiredFields, h1, h2, h3, h4, h5]

theorem decodeBooks_ok (elems : List Json) (bs : List Book)
    (h : decodeBooks elems = .ok bs) :
    bs.length = elems.length ∧
    ∀ i (h1 : i < elems.length) (h2 : i < bs.length),
      decodeBook (elems.get ⟨i, h1⟩) = .ok (bs.get ⟨i, h2⟩) := by
  induction elems generalizing bs with
  | nil =>
    simp only [decodeBooks, Except.ok.injEq] at h
    subst h
    exact ⟨rfl, fun i h1 h2 => absurd h1 (by simp)⟩
  | cons j rest ih =>
    cases hb : decodeBook j with
    | error e => simp [decodeBooks, hb, Bind.bind, Except.bind] at h
    | ok b =>
      cases hrest : decodeBooks rest with
      | error e =>
        simp [decodeBooks, hb, hrest, Bind.bind, Except.bind] at h
      | ok bs' =>
        simp only [decodeBooks, hb, hrest, Bind.bind, Except.bind,
          pure, Except.pure, Except.ok.injEq] at h
        subst h
        obtain ⟨hlen, hpt⟩ := ih bs' hrest
        refine ⟨by simp [hlen], ?_⟩
        intro i h1 h2
        cases i with
        | zero => simpa using hb
        | succ k =>
          have hk1 : k < rest.length := by simpa using h1
          have hk2 : k < bs'.length := by simpa using h2
          simpa using hpt k hk1 hk2

theorem decodeBooks_error_of_bad (elems : List Json) (j : Json)
    (hmem : j ∈ elems) (hbad : hasRequiredFields j = false) :
    ∀ bs, decodeBooks elems ≠ .ok bs := by
  intro bs h
  obtain ⟨hlen, hpt⟩ := decodeBooks_ok elems bs h
  obtain ⟨⟨i, hi⟩, hget⟩ := List.get_of_mem hmem
  have hdec := hpt i hi (by omega)
  rw [hget] at hdec
  have := decodeBook_ok_required j _ hdec
  rw [hbad] at this
  exact Bool.noConfusion this

/-- Claim C6: loading from a path with no file yields the empty sequence
without error; an existing file that is not valid JSON, or whose elements
lack a required field, makes the load fail with a surfaced error; a
well-formed file yields one record per array element with the stored id and
status taken over verbatim, not regenerated. -/
theorem load_books_cases :
    (Library.init none = .ok { books := [], dataFile := none }) ∧
    (∀ lib : Library, lib.dataFile = some .malformed →
      load_books lib = .error .invalidJson) ∧
    (∀ (lib : Library) (elems : List Json) (j : Json),
      lib.dataFile = some (.json (.arr elems)) → j ∈ elems →
      hasRequiredFields j = false →
      isParseFailure (load_books lib) = true) ∧
    (∀ (lib lib' : Library) (elems : List Json),
      lib.dataFile = some (.json (.arr elems)) →
      load_books lib = .ok lib' →
      lib'.books.length = elems.length ∧
      ∀ i (h1 : i < elems.length) (h2 : i < lib'.books.length),
        storedId (elems.get ⟨i, h1⟩) = some ((lib'.books.get ⟨i, h2⟩).id) ∧
        storedStatus (elems.get ⟨i, h1⟩) =
          some ((lib'.books.get ⟨i, h2⟩).status)) := by
  refine ⟨rfl, ?_, ?_, ?_⟩
  · intro lib h
    simp [load_books, h]
  · intro lib elems j hfile hmem hbad
    cases hd : decodeBooks elems with
    | error e => simp [load_books, hfile, hd, Except.map, isParseFailure]
    | ok bs => exact absurd hd (decodeBooks_error_of_bad elems j hmem hbad bs)
  · intro lib lib' elems hfile hload
    simp only [load_books, hfile] at hload
    cases hd : decodeBooks elems with
    | error e => simp [hd, Except.map] at hload
    | ok bs =>
      simp only [hd, Except.map, Except.ok.injEq] at hload
      subst hload
      obtain ⟨hlen, hpt⟩ := decodeBooks_ok elems bs hd
      refine ⟨hlen, ?_⟩
      intro i h1 h2
      have hdec := hpt i h1 (by simpa using h2)
      obtain ⟨fields, hobj, ht, ha, hy, hid, hst⟩ :=
        decodeBook_ok_fields _ _ hdec
      rw [hobj]
      constructor
      · simp [storedId, hid]
      · simp [storedStatus, hst]

/-- Witness for C6 at concrete inputs: a malformed file raises, an element
without the required fields raises, and a stored array is rehydrated with
its stored id and status kept. -/
theorem load_books_cases_witness :
    (load_books { books := [], dataFile := some .malformed } =
      .error .invalidJson) ∧
    (isParseFailure (load_books
      { books := [], dataFile := some (.json (.arr [.obj []])) }) = true) ∧
    (({ books := [⟨"1a2b3c4d", "T", "A", 2000, "выдана"⟩],
        dataFile := some (.json (.arr
          [Book.to_dict ⟨"1a2b3c4d", "T", "A", 2000, "выдана"⟩])) } :
      Library).books.length = 1) ∧
    (storedId (Book.to_dict ⟨"1a2b3c4d", "T", "A", 2000, "выдана"⟩) =
      some "1a2b3c4d") ∧
    (storedStatus (Book.to_dict ⟨"1a2b3c4d", "T", "A", 2000, "выдана"⟩) =
      some "выдана") :=
  ⟨load_books_cases.2.1 { books := [], dataFile := some .malformed } rfl,
   load_books_cases.2.2.1 { books := [], dataFile := some (.json (.arr [.obj []])) }
     [.obj []] (.obj []) rfl (List.mem_singleton_self _) rfl,
   (load_books_cases.2.2.2
     { books := [], dataFile := some (.json (.arr
         [Book.to_dict ⟨"1a2b3c4d", "T", "A", 2000, "выдана"⟩])) }
     { books := [⟨"1a2b3c4d", "T", "A", 2000, "выдана"⟩],
       dataFile := some (.json (.arr
         [Book.to_dict ⟨"1a2b3c4d", "T", "A", 2000, "выдана"⟩])) }
     [Book.to_dict ⟨"1a2b3c4d", "T", "A", 2000, "выдана"⟩] rfl rfl).1,
   ((load_books_cases.2.2.2
     { books := [], dataFile := some (.json (.arr
         [Book.to_dict ⟨"1a2b3c4d", "T", "A", 2000, "выдана"⟩])) }
     { books := [⟨"1a2b3c4d", "T", "A", 2000, "выдана"⟩],
       dataFile := some (.json (.arr
         [Book.to_dict ⟨"1a2b3c4d", "T", "A", 2000, "выдана"⟩])) }
     [Book.to_dict ⟨"1a2b3c4d", "T", "A", 2000, "выдана"⟩] rfl rfl).2
     0 (by simp) (by simp)).1,
   ((load_books_cases.2.2.2
     { books := [], dataFile := some (.json (.arr
         [Book.to_dict ⟨"1a2b3c4d", "T", "A", 2000, "выдана"⟩])) }
     { books := [⟨"1a2b3c4d", "T", "A", 2000, "выдана"⟩],
       dataFile := some (.json (.arr
         [Book.to_dict ⟨"1a2b3c4d", "T", "A", 2000, "выдана"⟩])) }
     [Book.to_dict ⟨"1a2b3c4d", "T", "A", 2000, "выдана"⟩] rfl rfl).2
     0 (by simp) (by simp)).2⟩

/-- Counterexample to claim C7 as stated: the load performed at
construction does not enforce the uniqueness invariant. Starting from the
invariant-satisfying empty state, constructing over a stored file whose two
records share the exact-case triple ("T", "A", 2000) succeeds and yields a
catalog violating the invariant. -/
theorem load_violates_unique_triples :
    UniqueTriples ([] : List Book) ∧
    Library.init (some (.json (.arr
      [Book.to_dict ⟨"00000001", "T", "A", 2000, "в наличии"⟩,
       Book.to_dict ⟨"00000002", "T", "A", 2000, "в наличии"⟩]))) =
      .ok { books := [⟨"00000001", "T", "A", 2000, "в наличии"⟩,
                      ⟨"00000002", "T", "A", 2000, "в наличии"⟩],
            dataFile := some (.json (.arr
              [Book.to_dict ⟨"00000001", "T", "A", 2000, "в наличии"⟩,
               Book.to_dict ⟨"00000002", "T", "A", 2000, "в наличии"⟩])) } ∧
    ¬ UniqueTriples [⟨"00000001", "T", "A", 2000, "в наличии"⟩,
                     ⟨"00000002", "T", "A", 2000, "в наличии"⟩] := by
  refine ⟨by simp [UniqueTriples], rfl, ?_⟩
  intro h
  simp [UniqueTriples, tripleOf] at h

/-- Claim C7 (amended): `add`, `remove` and `update_status` preserve the
uniqueness invariant on (title, author, year); the load performed at
construction yields an invariant state when the stored array's records
themselves carry pairwise distinct triples — in particular for any file
written by `save_books` from an invariant state — but enforces nothing by
itself. -/
theorem unique_triples_preserved :
    (∀ freshId title author year lib, UniqueTriples lib.books →
      UniqueTriples ((add_book freshId title author year lib).2.books)) ∧
    (∀ book_id lib, UniqueTriples lib.books →
      UniqueTriples ((remove_book book_id lib).2.books)) ∧
    (∀ book_id new_status lib, UniqueTriples lib.books →
      UniqueTriples ((update_status book_id new_status lib).2.books)) ∧
    (∀ (bs : List Book) (lib : Library), UniqueTriples bs →
      Library.init (some (.json (.arr (bs.map Book.to_dict)))) = .ok lib →
      UniqueTriples lib.books) := by
  refine ⟨?_, ?_, ?_, ?_⟩
  · intro freshId title author year lib h
    cases hany : lib.books.any fun b =>
        b.title == title && b.author == author && b.year == year with
    | true => simpa [add_book, hany] using h
    | false =>
      have hno : ∀ b ∈ lib.books,
          ¬(b.title = title ∧ b.author = author ∧ b.year = year) := by
        intro b hb hc
        have : lib.books.any (fun b =>
            b.title == title && b.author == author && b.year == year) = true := by
          simp only [List.any_eq_true, Bool.and_eq_true, beq_iff_eq]
          exact ⟨b, hb, ⟨hc.1, hc.2.1⟩, hc.2.2⟩
        rw [hany] at this
        exact Bool.noConfusion this
      simp only [add_book, hany, Bool.false_eq_true, if_false, save_books]
      unfold UniqueTriples at h ⊢
      rw [List.map_append, List.nodup_append]
      refine ⟨h, by simp, ?_⟩
      intro t ht ht'
      simp only [List.map_cons, List.map_nil, List.mem_singleton] at ht'
      subst ht'
      obtain ⟨b, hb, htr⟩ := List.mem_map.mp ht
      have hbc : b.title = title ∧ b.author = author ∧ b.year = year := by
        simpa [tripleOf, Prod.ext_iff] using htr
      exact hno b hb hbc
  · intro book_id lib h
    cases hf : find_book_by_id book_id lib with
    | none => simpa [remove_book, hf] using h
    | some b =>
      simp only [remove_book, hf, save_books]
      exact List.Nodup.sublist
        ((List.eraseP_sublist lib.books).map tripleOf) h
  · intro book_id new_status lib h
    cases hf : find_book_by_id book_id lib with
    | none => simpa [update_status, hf] using h
    | some b =>
      cases hv : new_status == statusAvailable
          || new_status == statusCheckedOut with
      | false => simpa [update_status, hf, hv] using h
      | true =>
        simp only [update_status, hf, hv, if_true, save_books]
        unfold UniqueTriples at h ⊢
        rwa [setStatusFirst_map_triple]
  · intro bs lib h hload
    simp only [Library.init, load_books, decodeBooks_map_to_dict,
      Except.map, Except.ok.injEq] at hload
    rw [← hload]
    exact h

/-- Witness for C7 (amended) at concrete inputs: each operation applied to
a small invariant state yields an invariant state. -/
theorem unique_triples_preserved_witness :
    UniqueTriples ((add_book "0a0a0a0a" "T" "A" 2000
      { books := [], dataFile := none }).2.books) ∧
    UniqueTriples ((remove_book "1a2b3c4d"
      { books := [⟨"1a2b3c4d", "T", "A", 2000, "в наличии"⟩],
        dataFile := none }).2.books) ∧
    UniqueTriples ((update_status "1a2b3c4d" "выдана"
      { books := [⟨"1a2b3c4d", "T", "A", 2000, "в наличии"⟩],
        dataFile := none }).2.books) ∧
    UniqueTriples (Library.mk
      [⟨"1a2b3c4d", "T", "A", 2000, "в наличии"⟩]
      (some (.json (.arr
        ([⟨"1a2b3c4d", "T", "A", 2000, "в наличии"⟩].map
          Book.to_dict))))).books :=
  ⟨unique_triples_preserved.1 "0a0a0a0a" "T" "A" 2000
     { books := [], dataFile := none } (by simp [UniqueTriples]),
   unique_triples_preserved.2.1 "1a2b3c4d"
     { books := [⟨"1a2b3c4d", "T", "A", 2000, "в наличии"⟩],
       dataFile := none } (by simp [UniqueTriples]),
   unique_triples_preserved.2.2.1 "1a2b3c4d" "выдана"
     { books := [⟨"1a2b3c4d", "T", "A", 2000, "в наличии"⟩],
       dataFile := none } (by simp [UniqueTriples]),
   unique_triples_preserved.2.2.2
     [⟨"1a2b3c4d", "T", "A", 2000, "в наличии"⟩]
     { books := [⟨"1a2b3c4d", "T", "A", 2000, "в наличии"⟩],
       dataFile := some (.json (.arr
         ([⟨"1a2b3c4d", "T", "A", 2000, "в наличии"⟩].map Book.to_dict))) }
     (by simp [UniqueTriples]) rfl⟩

/-- Counterexample to claim C9 as stated: nothing validates text
non-emptiness. On the reachable state built from a missing file, `add` with
empty title and empty author succeeds, and the catalog then holds a record
whose title and author are empty. -/
theorem add_accepts_empty_texts :
    Library.init none = .ok { books := [], dataFile := none } ∧
    (add_book "00c0ffee" "" "" 2000 { books := [], dataFile := none }).1 =
      .added ⟨"00c0ffee", "", "", 2000, "в наличии"⟩ ∧
    (add_book "00c0ffee" "" "" 2000
      { books := [], dataFile := none }).2.books =
      [⟨"00c0ffee", "", "", 2000, "в наличии"⟩] ∧
    ¬ NonEmptyTexts (add_book "00c0ffee" "" "" 2000
      { books := [], dataFile := none }).2.books := by
  refine ⟨rfl, rfl, rfl, ?_⟩
  intro hne
  exact (hne ⟨"00c0ffee", "", "", 2000, "в наличии"⟩
    (List.mem_singleton_self _)).1 rfl

/-- Claim C9 (amended): the catalog stores exactly the supplied text and
does not enforce non-emptiness; non-empty titles and authors are preserved,
not established — they persist across the operations provided `add` is
called with non-empty title and author and the loaded file stores only
non-empty texts. -/
theorem nonempty_texts_conditional :
    (∀ freshId title author year lib, NonEmptyTexts lib.books →
      title ≠ "" → author ≠ "" →
      NonEmptyTexts ((add_book freshId title author year lib).2.books)) ∧
    (∀ book_id lib, NonEmptyTexts lib.books →
      NonEmptyTexts ((remove_book book_id lib).2.books)) ∧
    (∀ book_id new_status lib, NonEmptyTexts lib.books →
      NonEmptyTexts ((update_status book_id new_status lib).2.books)) ∧
    (∀ (bs : List Book) (lib : Library), NonEmptyTexts bs →
      Library.init (some (.json (.arr (bs.map Book.to_dict)))) = .ok lib →
      NonEmptyTexts lib.books) := by
  refine ⟨?_, ?_, ?_, ?_⟩
  · intro freshId title author year lib h ht ha
    cases hany : lib.books.any fun b =>
        b.title == title && b.author == author && b.year == year with
    | true => simpa [add_book, hany] using h
    | false =>
      simp only [add_book, hany, Bool.false_eq_true, if_false, save_books]
      intro b hb
      rcases List.mem_append.mp hb with hb | hb
      · exact h b hb
      · rw [List.mem_singleton] at hb
        subst hb
        exact ⟨ht, ha⟩
  · intro book_id lib h
    cases hf : find_book_by_id book_id lib with
    | none => simpa [remove_book, hf] using h
    | some b =>
      simp only [remove_book, hf, save_books]
      intro x hx
      exact h x ((List.eraseP_sublist lib.books).subset hx)
  · intro book_id new_status lib h
    cases hf : find_book_by_id book_id lib with
    | none => simpa [update_status, hf] using h
    | some b =>
      cases hv : new_status == statusAvailable
          || new_status == statusCheckedOut with
      | false => simpa [update_status, hf, hv] using h
      | true =>
        simp only [update_status, hf, hv, if_true, save_books]
        intro x hx
        have hmem : tripleOf x ∈
            (setStatusFirst book_id new_status lib.books).map tripleOf :=
          List.mem_map_of_mem tripleOf hx
        rw [setStatusFirst_map_triple] at hmem
        obtain ⟨c, hc, htr⟩ := List.mem_map.mp hmem
        have hcomp : c.title = x.title ∧ c.author = x.author := by
          have := htr
          simp only [tripleOf, Prod.ext_iff] at this
          exact ⟨this.1, this.2.1⟩
        refine ⟨?_, ?_⟩
        · rw [← hcomp.1]; exact (h c hc).1
        · rw [← hcomp.2]; exact (h c hc).2
  · intro bs lib h hload
    simp only [Library.init, load_books, decodeBooks_map_to_dict,
      Except.map, Except.ok.injEq] at hload
    rw [← hload]
    exact h

/-- Witness for C9 (amended) at concrete inputs: each operation applied
with non-empty texts yields a state whose texts stay non-empty. -/
theorem nonempty_texts_conditional_witness :
    NonEmptyTexts ((add_book "0a0a0a0a" "T" "A" 2000
      { books := [], dataFile := none }).2.books) ∧
    NonEmptyTexts ((remove_book "1a2b3c4d"
      { books := [⟨"1a2b3c4d", "T", "A", 2000, "в наличии"⟩],
        dataFile := none }).2.books) ∧
    NonEmptyTexts ((update_status "1a2b3c4d" "выдана"
      { books := [⟨"1a2b3c4d", "T", "A", 2000, "в наличии"⟩],
        dataFile := none }).2.books) ∧
    NonEmptyTexts (Library.mk
      [⟨"1a2b3c4d", "T", "A", 2000, "в наличии"⟩]
      (some (.json (.arr
        ([⟨"1a2b3c4d", "T", "A", 2000, "в наличии"⟩].map
          Book.to_dict))))).books :=
  ⟨nonempty_texts_conditional.1 "0a0a0a0a" "T" "A" 2000
     { books := [], dataFile := none } (by simp [NonEmptyTexts])
     (by decide) (by decide),
   nonempty_texts_conditional.2.1 "1a2b3c4d"
     { books := [⟨"1a2b3c4d", "T", "A", 2000, "в наличии"⟩],
       dataFile := none }
     (by intro b hb; rw [List.mem_singleton] at hb; subst hb
         exact ⟨by decide, by decide⟩),
   nonempty_texts_conditional.2.2.1 "1a2b3c4d" "выдана"
     { books := [⟨"1a2b3c4d", "T", "A", 2000, "в наличии"⟩],
       dataFile := none }
     (by intro b hb; rw [List.mem_singleton] at hb; subst hb
         exact ⟨by decide, by decide⟩),
   nonempty_texts_conditional.2.2.2
     [⟨"1a2b3c4d", "T", "A", 2000, "в наличии"⟩]
     { books := [⟨"1a2b3c4d", "T", "A", 2000, "в наличии"⟩],
       dataFile := some (.json (.arr
         ([⟨"1a2b3c4d", "T", "A", 2000, "в наличии"⟩].map Book.to_dict))) }
     (by intro b hb; rw [List.mem_singleton] at hb; subst hb
         exact ⟨by decide, by decide⟩) rfl⟩
